import Mathlib

/-!
Shallow embedding of the 13F holdings analyzer
(src/src/insight13f/sec_13f_analyzer.py) and proofs about its behaviour.

Modelling conventions:
  * Python floats are modelled as rational numbers; the arithmetic the
    analyzer performs (sums, division by a total, scaling by 1000 and 100)
    is exact on the values appearing in the development.
  * Python dictionaries are modelled as association lists in insertion
    order; a parsed holdings entry is literally the two-key dictionary the
    source constructs.
  * Python strings are modelled as Lean strings; the handful of string
    operations used by the source (strip, upper, substring containment,
    slicing, lexicographic comparison, replace of dashes) are defined below
    on the underlying character lists so that all of them compute.
  * Network and XML-library collaborators are passed in as function
    parameters: an HTTP transport mapping a URL to an optional
    (status, body) pair (None models a raised request exception), and an
    ElementTree reader mapping a document string to an optional element
    tree (None models a ParseError).
-/

/-! ### Python string primitives (on character lists) -/

/-- Python str.strip(): remove leading and trailing whitespace. -/
def pyStrip (s : String) : String :=
  String.mk (((s.toList.dropWhile Char.isWhitespace).reverse.dropWhile Char.isWhitespace).reverse)

/-- Python str.upper() on the ASCII names appearing in filings. -/
def pyUpper (s : String) : String := String.mk (s.toList.map Char.toUpper)

/-- Python str.lower() on ASCII content. -/
def pyLower (s : String) : String := String.mk (s.toList.map Char.toLower)

/-- Python slicing s[:n]. -/
def strTake (s : String) (n : Nat) : String := String.mk (s.toList.take n)

/-- Substring test used for Python's "needle in haystack". -/
def chContains (pat : List Char) : List Char → Bool
  | [] => pat.isEmpty
  | c :: rest => pat.isPrefixOf (c :: rest) || chContains pat rest

/-- Python "needle in haystack" on strings. -/
def pyIn (needle hay : String) : Bool := chContains needle.toList hay.toList

/-- Python lexicographic string comparison (less or equal), used on
ISO-format filing dates. -/
def chListLe : List Char → List Char → Bool
  | [], _ => true
  | _ :: _, [] => false
  | a :: as, b :: bs => if a < b then true else if b < a then false else chListLe as bs

/-- Python accession.replace with a dash and an empty replacement: drop
every dash. -/
def removeDashes (s : String) : String := String.mk (s.toList.filter (fun c => c ≠ '-'))

/-- Python int() on the digit-only CIK strings the analyzer receives. -/
def digitsVal (cs : List Char) : Nat := cs.foldl (fun a c => a * 10 + (c.toNat - 48)) 0

/-- Numeric value of a CIK string. -/
def strToNat (s : String) : Nat := digitsVal s.toList

/-! ### Holdings records

A parsed holding is the Python dictionary built at
sec_13f_analyzer.py:229/263/266: exactly the keys company_name and
market_value, in that insertion order.  A snapshot is the outer dictionary
keyed by CUSIP (or CUSIP-8). -/

/-- A Python dictionary value: the analyzer stores strings and floats. -/
inductive PyVal where
  | str (s : String)
  | num (q : ℚ)
deriving DecidableEq

/-- One holdings entry: the dict with keys company_name and market_value. -/
abbrev HoldingDict := List (String × PyVal)

/-- The outer holdings dictionary, keyed by identity key. -/
abbrev Snapshot := List (String × HoldingDict)

/-- Construct the two-field holdings dictionary in source insertion order. -/
def mkHolding (name : String) (mv : ℚ) : HoldingDict :=
  [("company_name", PyVal.str name), ("market_value", PyVal.num mv)]

/-- The defaultdict default at sec_13f_analyzer.py:229 and the lookup
default at py:336-337. -/
def emptyHolding : HoldingDict := mkHolding "" 0

/-- Read the company_name field.  Entries built by the parser always carry
the key; the fallback arm exists only for totality. -/
def hdName (d : HoldingDict) : String :=
  match List.lookup "company_name" d with
  | some (PyVal.str s) => s
  | _ => ""

/-- Read the market_value field.  Entries built by the parser always carry
the key; the fallback arm exists only for totality. -/
def hdValue (d : HoldingDict) : ℚ :=
  match List.lookup "market_value" d with
  | some (PyVal.num q) => q
  | _ => 0

/-! ### Element trees

The ElementTree view of an XML document: a tag, the text before the first
child (None when absent) and the child elements. -/

structure XmlElem where
  tag : String
  text : Option String
  children : List XmlElem

mutual
/-- All proper descendants of an element in document order, as ElementTree
findall with a descendant path returns them. -/
def elemDescendants : XmlElem → List XmlElem
  | XmlElem.mk _ _ cs => listDescendants cs

/-- Document-order descendants of a forest. -/
def listDescendants : List XmlElem → List XmlElem
  | [] => []
  | c :: rest => c :: (elemDescendants c ++ listDescendants rest)
end

/-- ElementTree findall with a match-anywhere descendant path. -/
def findallDesc (e : XmlElem) (tag : String) : List XmlElem :=
  (elemDescendants e).filter (fun c => c.tag == tag)

/-- ElementTree find with a match-anywhere descendant path: first
descendant with the tag, in document order. -/
def findDesc (e : XmlElem) (tag : String) : Option XmlElem :=
  (findallDesc e tag).head?

/-! ### Numeric field parsing

Python float() on the plain decimal literals found in 13F value fields
(optional sign, digits, optional fractional part).  Exotic float syntax
(exponents, infinities) does not occur in these fields and is mapped to a
parse failure, which the row loop treats as a skipped row either way. -/

/-- Unsigned decimal literal to a rational. -/
def pyFloatCore (cs : List Char) : Option ℚ :=
  let ip := cs.takeWhile Char.isDigit
  let rest := cs.drop ip.length
  match rest with
  | [] => if ip.isEmpty then none else some (digitsVal ip)
  | '.' :: fr =>
    if fr.all Char.isDigit && !(ip.isEmpty && fr.isEmpty) then
      some ((digitsVal ip : ℚ) + (digitsVal fr : ℚ) / ((10 : ℚ) ^ fr.length))
    else none
  | _ => none

/-- Signed decimal literal after stripping, as float(text.strip()). -/
def pyFloatQ (s : String) : Option ℚ :=
  match (pyStrip s).toList with
  | '-' :: cs => (pyFloatCore cs).map (fun q => -q)
  | '+' :: cs => pyFloatCore cs
  | cs => pyFloatCore cs

/-! ### Structured-markup parser (sec_13f_analyzer.py:199-276) -/

/-- One aggregation step on the outer dictionary: add the market value to
the entry for the key (creating the defaultdict default first when absent,
py:229/263) and keep the first non-empty company name (py:266-267). -/
def updatedEntry (d : HoldingDict) (issuer : String) (mv : ℚ) : HoldingDict :=
  let newName := if hdName d = "" ∧ issuer ≠ "" then issuer else hdName d
  mkHolding newName (hdValue d + mv)

/-- Update the snapshot at a key in place, preserving dictionary insertion
order; a fresh key is appended. -/
def snapUpdate (holdings : Snapshot) (key issuer : String) (mv : ℚ) : Snapshot :=
  match holdings with
  | [] => [(key, updatedEntry emptyHolding issuer mv)]
  | (k, d) :: rest =>
    if k = key then (k, updatedEntry d issuer mv) :: rest
    else (k, d) :: snapUpdate rest key issuer mv

/-- The fields extracted from one infoTable row (py:241-254): issuer name
stripped and uppercased, CUSIP stripped, and the value in thousands.  None
models the continue taken on a missing element, a missing text node
(AttributeError) or an unparsable number (ValueError): the row is skipped
and only counted as an error. -/
def rowFields (table : XmlElem) : Option (String × String × ℚ) := do
  let ie ← findDesc table "nameOfIssuer"
  let ce ← findDesc table "cusip"
  let ve ← findDesc table "value"
  let itext ← ie.text
  let ctext ← ce.text
  let vtext ← ve.text
  let mv ← pyFloatQ vtext
  pure (pyUpper (pyStrip itext), pyStrip ctext, mv)

/-- Process one infoTable row into the accumulating snapshot
(py:238-273): key by the first 8 characters of the CUSIP when aggregating
(py:257-260), normalize thousands to base units (py:253-254), aggregate
(py:263-267). -/
def processInfoTable (aggregate_by_cusip8 : Bool) (holdings : Snapshot) (table : XmlElem) :
    Snapshot :=
  match rowFields table with
  | some (issuer_name, cusip_full, mvThousands) =>
    let cusip_key := if aggregate_by_cusip8 then strTake cusip_full 8 else cusip_full
    snapUpdate holdings cusip_key issuer_name (mvThousands * 1000)
  | none => holdings

/-- The body of parse_13f_xml once the element tree is in hand
(py:229-276): fold every descendant infoTable row into the snapshot. -/
def parse_13f_xml_fromRoot (root : XmlElem) (aggregate_by_cusip8 : Bool) : Snapshot :=
  (findallDesc root "infoTable").foldl (processInfoTable aggregate_by_cusip8) []

/-- Drop characters up to and including the next double quote. -/
def dropThroughQuote : List Char → List Char
  | [] => []
  | c :: r => if c = '"' then r else dropThroughQuote r

/-- The namespace strip at py:220: remove the first occurrence of a
default xmlns attribute (a space, the attribute name, an equals sign, a
quoted value) and leave the rest of the document unchanged. -/
def stripNsChars : List Char → List Char
  | [] => []
  | c :: rest =>
    if (" xmlns=".toList ++ ['"']).isPrefixOf (c :: rest) then
      dropThroughQuote (List.drop 8 (c :: rest))
    else c :: stripNsChars rest

/-- Namespace strip on a document string. -/
def stripNs (s : String) : String := String.mk (stripNsChars s.toList)

/-- parse_13f_xml (py:199-276): strip the namespace declaration, hand the
document to the XML library (the etParse collaborator; None models a
ParseError, returning the empty snapshot, py:222-226), then extract the
holdings. -/
def parse_13f_xml (etParse : String → Option XmlElem) (xml_content : String)
    (aggregate_by_cusip8 : Bool) : Snapshot :=
  match etParse (stripNs xml_content) with
  | none => []
  | some root => parse_13f_xml_fromRoot root aggregate_by_cusip8

/-! ### Ticker mapping (sec_13f_analyzer.py:28-92) -/

/-- The static company-name to ticker mapping, in source insertion order. -/
def ticker_mapping : List (String × String) := [
  ("APPLE INC", "AAPL"),
  ("BANK OF AMERICA CORP", "BAC"),
  ("BANK AMER CORP", "BAC"),
  ("AMERICAN EXPRESS CO", "AXP"),
  ("COCA COLA CO", "KO"),
  ("COCA-COLA CO", "KO"),
  ("CHEVRON CORP NEW", "CVX"),
  ("CHEVRON CORP", "CVX"),
  ("OCCIDENTAL PETE CORP", "OXY"),
  ("OCCIDENTAL PETROLEUM CORP", "OXY"),
  ("KRAFT HEINZ CO", "KHC"),
  ("MOODYS CORP", "MCO"),
  ("VERISIGN INC", "VRSN"),
  ("DAVITA INC", "DVA"),
  ("HP INC", "HPQ"),
  ("CITIGROUP INC", "C"),
  ("CAPITAL ONE FINL CORP", "COF"),
  ("KROGER CO", "KR"),
  ("DIAMONDBACK ENERGY INC", "FANG"),
  ("MARSH & MCLENNAN COS INC", "MMC"),
  ("MARCH & MCLENNAN COS INC", "MMC"),
  ("NU HOLDINGS LTD", "NU"),
  ("LIBERTY MEDIA CORP DELAWARE", "FWONA"),
  ("LIBERTY MEDIA CORP DE A", "FWONA"),
  ("LIBERTY MEDIA CORP DE C", "FWONK"),
  ("AT&T INC", "T"),
  ("PARAMOUNT GLOBAL", "PARA"),
  ("VIACOMCBS INC", "PARA"),
  ("DEUTSCHE TELEKOM AG", "DTEGY"),
  ("FORMULA ONE GROUP", "FWONK"),
  ("CHUBB LIMITED", "CB"),
  ("VISA INC", "V"),
  ("MASTERCARD INC", "MA"),
  ("CONSTELLATION BRANDS INC", "STZ"),
  ("ALLY FINL INC", "ALLY"),
  ("AMAZON COM INC", "AMZN"),
  ("CHARTER COMMUNICATIONS INC", "CHTR"),
  ("DOMINOS PIZZA INC", "DPZ"),
  ("HEICO CORP", "HEI"),
  ("JEFFERIES FINL GROUP INC", "JEF"),
  ("LENNAR CORP", "LEN"),
  ("LOUISIANA PAC CORP", "LPX"),
  ("NVR INC", "NVR"),
  ("POOL CORP", "POOL"),
  ("SIRIUS XM HOLDINGS INC", "SIRI"),
  ("T-MOBILE US INC", "TMUS"),
  ("AON PLC", "AON"),
  ("LIBERTY LATIN AMERICA LTD", "LILA"),
  ("DIAGEO P L C", "DEO"),
  ("ATLANTA BRAVES HLDGS INC", "BATRA"),
  ("MICROSOFT CORP", "MSFT"),
  ("JOHNSON & JOHNSON", "JNJ"),
  ("BERKSHIRE HATHAWAY INC", "BRK.B"),
  ("JPMORGAN CHASE & CO", "JPM"),
  ("PROCTER & GAMBLE CO", "PG"),
  ("UNITEDHEALTH GROUP INC", "UNH"),
  ("TESLA INC", "TSLA"),
  ("NVIDIA CORP", "NVDA"),
  ("META PLATFORMS INC", "META"),
  ("ALPHABET INC", "GOOGL"),
  ("WELLS FARGO & CO", "WFC"),
  ("HOME DEPOT INC", "HD"),
  ("PFIZER INC", "PFE")]

/-- get_ticker_symbol (py:278-300): exact dictionary lookup first, then the
first mapping entry related by substring containment in either direction
(dictionary iteration order is insertion order), else the N/A marker. -/
def get_ticker_symbol (company_name : String) : String :=
  let clean_name := pyUpper (pyStrip company_name)
  match List.lookup clean_name ticker_mapping with
  | some t => t
  | none =>
    match ticker_mapping.find? (fun p => pyIn p.1 clean_name || pyIn clean_name p.1) with
    | some p => p.2
    | none => "N/A"

/-! ### Change calculator (sec_13f_analyzer.py:302-369) -/

/-- One output row of calculate_portfolio_changes: the dictionary built at
py:356-366, with its exact key set.  There is no share-count field of any
kind in the source rows. -/
structure AnalysisRow where
  cusip : String
  company_name : String
  ticker : String
  current_value : ℚ
  previous_value : ℚ
  weight_current : ℚ
  weight_previous : ℚ
  weight_change : ℚ
  status : String
deriving DecidableEq

/-- First-occurrence deduplication: a deterministic representative of the
Python set union of the two key sets at py:330 (set iteration order is
unspecified; the source sorts the rows only later, in the table
generator). -/
def dedupFirst : List String → List String
  | [] => []
  | k :: rest => k :: (dedupFirst rest).filter (fun x => x != k)

/-- The union of the two snapshots' key sets (py:330). -/
def all_cusips (cur prev : Snapshot) : List String :=
  dedupFirst (cur.map Prod.fst ++ prev.map Prod.fst)

/-- The total market value of a snapshot (py:323-324 before the or). -/
def totalValue (h : Snapshot) : ℚ := (h.map (fun p => hdValue p.2)).sum

/-- Python's  "sum(...) or 1.0": a zero total is replaced by 1 so the
weight divisions below never divide by zero. -/
def pyOr1 (q : ℚ) : ℚ := if q = 0 then 1 else q

/-- The looked-up market value of a key, with the py:336-337 default. -/
def lookVal (s : Snapshot) (k : String) : ℚ :=
  hdValue ((List.lookup k s).getD emptyHolding)

/-- The looked-up company name of a key, with the py:336-337 default. -/
def lookName (s : Snapshot) (k : String) : String :=
  hdName ((List.lookup k s).getD emptyHolding)

/-- Build the analysis row for one key (py:334-366). The company name is
Python's  current or previous  (the current period's name wins whenever it
is non-empty); weights are value over total times 100; status NEW when the
previous value is zero, else EXIT when the current value is zero, else
CHANGE (py:349-354). -/
def makeRow (total_current total_previous : ℚ) (cur prev : Snapshot) (cusip : String) :
    AnalysisRow :=
  let current_data := (List.lookup cusip cur).getD emptyHolding
  let previous_data := (List.lookup cusip prev).getD emptyHolding
  let company_name := if hdName current_data ≠ "" then hdName current_data
                      else hdName previous_data
  let weight_current := hdValue current_data / total_current * 100
  let weight_previous := hdValue previous_data / total_previous * 100
  { cusip := cusip
    company_name := company_name
    ticker := get_ticker_symbol company_name
    current_value := hdValue current_data
    previous_value := hdValue previous_data
    weight_current := weight_current
    weight_previous := weight_previous
    weight_change := weight_current - weight_previous
    status := if hdValue previous_data = 0 then "NEW"
              else if hdValue current_data = 0 then "EXIT"
              else "CHANGE" }

/-- calculate_portfolio_changes (py:302-369): totals floored at 1 when
zero, one row per key in the union of the two snapshots.  The source
imposes no ordering on the rows. -/
def calculate_portfolio_changes (cur prev : Snapshot) : List AnalysisRow :=
  let total_current := pyOr1 (totalValue cur)
  let total_previous := pyOr1 (totalValue prev)
  (all_cusips cur prev).map (makeRow total_current total_previous cur prev)

/-! ### Table generator (sec_13f_analyzer.py:371-402) -/

/-- generate_tables (py:371-402): holdings sorted by current weight
descending and truncated to 20; buys filtered to strictly positive weight
change, sorted by weight change descending and truncated to 20; sells
filtered to strictly negative weight change, sorted ascending (most
negative first) and truncated to 20.  Python's sorted is stable, as is the
insertion sort used here. -/
def generate_tables (analysis_data : List AnalysisRow) :
    List AnalysisRow × List AnalysisRow × List AnalysisRow :=
  let top_holdings :=
    (List.insertionSort (fun a b => b.weight_current ≤ a.weight_current) analysis_data).take 20
  let buys := analysis_data.filter (fun x => decide (0 < x.weight_change))
  let top_buys :=
    (List.insertionSort (fun a b => b.weight_change ≤ a.weight_change) buys).take 20
  let sells := analysis_data.filter (fun x => decide (x.weight_change < 0))
  let top_sells :=
    (List.insertionSort (fun a b => a.weight_change ≤ b.weight_change) sells).take 20
  (top_holdings, top_buys, top_sells)

/-! ### Filing locator (sec_13f_analyzer.py:94-150) -/

/-- One entry of the submission index: form type, accession number and
filing date, as zipped at py:130-132. -/
abbrev Filing := String × String × String

/-- Descending-by-filing-date comparison used by the py:140 sort (Python
compares the ISO date strings lexicographically; reverse=True). -/
def filingDesc (a b : Filing) : Prop := chListLe b.2.2.toList a.2.2.toList = true

instance : DecidableRel filingDesc := fun _ _ => instDecidableEqBool _ _

/-- The py:133 form filter: the primary form type and its amendment. -/
def eligibleForm (f : Filing) : Bool := f.1 == "13F-HR" || f.1 == "13F-HR/A"

/-- get_recent_13f_filings (py:94-150) on the submission index: keep the
two accepted form types (py:133), require at least two (py:136-137), sort
by date newest first (py:140) and return the two most recent accession
numbers (py:144-150).  The final arm is unreachable: sorting preserves the
length, which the guard has already checked to be at least 2. -/
def get_recent_13f_filings (recent : List Filing) : Except String (String × String) :=
  if (recent.filter eligibleForm).length < 2 then
    Except.error ("Found only " ++ Nat.repr (recent.filter eligibleForm).length
      ++ " 13F filings, need at least 2")
  else
    match List.insertionSort filingDesc (recent.filter eligibleForm) with
    | current_filing :: previous_filing :: _ =>
      Except.ok (current_filing.2.1, previous_filing.2.1)
    | _ => Except.error "unreachable"

/-! ### Content fetcher (sec_13f_analyzer.py:152-197) -/

/-- The four candidate document URLs (py:176-181). -/
def possible_urls (cik_int : Nat) (accession_clean : String) : List String :=
  let base := "https://www.sec.gov/Archives/edgar/data/" ++ Nat.repr cik_int ++ "/"
    ++ accession_clean ++ "/"
  [base ++ "form13fInfoTable.xml",
   base ++ "InfoTable.xml",
   base ++ "primary_doc.xml",
   base ++ "d" ++ strTake accession_clean 12 ++ "inftable.xml"]

/-- The py:183-194 loop: return the body of the first candidate URL
answered with HTTP 200; a non-200 status or a transport exception (None)
moves on to the next candidate.  No inspection of the body happens. -/
def fetchLoop (http : String → Option (Nat × String)) : List String → Option String
  | [] => none
  | u :: rest =>
    match http u with
    | some (code, body) => if code = 200 then some body else fetchLoop http rest
    | none => fetchLoop http rest

/-- fetch_13f_xml (py:152-197): clean the accession number and walk the
candidate URLs.  None models the py:197 return None. -/
def fetch_13f_xml (http : String → Option (Nat × String)) (cik_int : Nat)
    (accession_number : String) : Option String :=
  fetchLoop http (possible_urls cik_int (removeDashes accession_number))

/-! ### Analyzer construction and the full run (sec_13f_analyzer.py:16-25, 473-550) -/

/-- The analyzer state set up by the constructor (py:16-25): the session
headers carrying the user agent, and the static ticker mapping.  The
constructor performs no validation of the user agent; the Except return
type only records that construction cannot fail. -/
structure SEC13FAnalyzer where
  headers : List (String × String)
  tickers : List (String × String)
deriving DecidableEq

/-- The constructor (py:16-25): store the headers; nothing is checked. -/
def SEC13FAnalyzer.init (user_agent : String) : Except String SEC13FAnalyzer :=
  Except.ok { headers := [("User-Agent", user_agent)], tickers := ticker_mapping }

/-- Python truthiness of an optional string: None and the empty string are
falsy (the py:503 and py:509 "if not xml" checks). -/
def optTruthy : Option String → Bool
  | none => false
  | some s => !(s == "")

/-- The result dictionary built at py:535-543: its exact key set.  No
hasPreviousData key exists in the source. -/
structure AnalysisResults where
  cik : String
  current_accession : String
  previous_accession : String
  top_holdings : List AnalysisRow
  top_buys : List AnalysisRow
  top_sells : List AnalysisRow
  analysis_data : List AnalysisRow
deriving DecidableEq

deriving instance DecidableEq for Except

/-- analyze_institution (py:473-550) with its collaborators passed in: the
submission index rows (consumed by the locator), the HTTP transport and
the XML reader.  Printing, sleeping and CSV export are side effects with
no bearing on the returned value and are not modelled.  An Except.error
models the raised exception: a missing or empty current-period document is
fatal (py:503-504), a missing or empty previous-period document is equally
fatal (py:509-510), and an empty current holdings dictionary is fatal
(py:516-517). -/
def analyze_institution (recent : List Filing) (http : String → Option (Nat × String))
    (etParse : String → Option XmlElem) (cik : String) : Except String AnalysisResults :=
  match get_recent_13f_filings recent with
  | Except.error e => Except.error e
  | Except.ok (current_accession, previous_accession) =>
    let current_xml := fetch_13f_xml http (strToNat cik) current_accession
    if !optTruthy current_xml then Except.error "Could not fetch current quarter XML"
    else
      let previous_xml := fetch_13f_xml http (strToNat cik) previous_accession
      if !optTruthy previous_xml then Except.error "Could not fetch previous quarter XML"
      else
        let current_holdings := parse_13f_xml etParse (current_xml.getD "") true
        let previous_holdings := parse_13f_xml etParse (previous_xml.getD "") true
        if current_holdings.isEmpty then Except.error "No current holdings data found"
        else
          let analysis_data := calculate_portfolio_changes current_holdings previous_holdings
          let tables := generate_tables analysis_data
          Except.ok { cik := cik, current_accession := current_accession,
                      previous_accession := previous_accession,
                      top_holdings := tables.1, top_buys := tables.2.1,
                      top_sells := tables.2.2, analysis_data := analysis_data }

/-! ### Definitions modelled from the specification's words

These two definitions deliberately follow the specification text rather
than the source; they exist to be compared against the source-derived
definitions above. -/

/-- Modelled from the spec: the shared holdings-table shape/validity
predicate of section 4.3, which the source does not contain.  Content is a
candidate holdings table iff it is non-empty and contains, case
insensitively, at least 2 of the four markers (an information-table
marker, an info-table marker, the issuer-name field marker, the
security-identifier field marker); a payload containing a generic
submission marker but neither table marker is rejected. -/
def shape_check_spec (content : String) : Bool :=
  let lower := pyLower content
  let hasInfoTable := pyIn "informationtable" lower || pyIn "infotable" lower
  let score :=
    ((["informationtable", "infotable", "nameofissuer", "cusip"] : List String).filter
      (fun m => pyIn m lower)).length
  if content == "" then false
  else if pyIn "submission" lower && !hasInfoTable then false
  else decide (2 ≤ score)

/-- Modelled from the spec: the previous-disclosure selection of section
4.1 step 4, which the source does not contain.  Given the
newest-first-sorted eligible disclosures, scan up to 4 candidates after
the current one, fetch each one's content and accept the first passing
the shape check; when none passes, fall back to the chronologically
second candidate regardless of validity. -/
def select_previous_spec (fetchContent : String → Option String)
    (sorted_filings : List Filing) : Option String :=
  match sorted_filings with
  | [] => none
  | _ :: rest =>
    match (rest.take 4).find? (fun c =>
        match fetchContent c.2.1 with
        | some body => shape_check_spec body
        | none => false) with
    | some c => some c.2.1
    | none => rest.head?.map (fun c => c.2.1)

/-! ### Helper lemmas -/

theorem chListLe_total (a b : List Char) : chListLe a b = true ∨ chListLe b a = true := by
  induction a generalizing b with
  | nil => left; rfl
  | cons x xs ih =>
    cases b with
    | nil => right; rfl
    | cons y ys =>
      rcases lt_trichotomy x y with h | h | h
      · left; simp [chListLe, h]
      · subst h
        rcases ih ys with h2 | h2
        · left; simp [chListLe, h2]
        · right; simp [chListLe, h2]
      · right; simp [chListLe, h]

theorem chListLe_trans (a b c : List Char) (h1 : chListLe a b = true)
    (h2 : chListLe b c = true) : chListLe a c = true := by
  induction a generalizing b c with
  | nil => rfl
  | cons x xs ih =>
    cases b with
    | nil => simp [chListLe] at h1
    | cons y ys =>
      cases c with
      | nil => simp [chListLe] at h2
      | cons z zs =>
        by_cases hxy : x < y
        · by_cases hyz : y < z
          · simp [chListLe, lt_trans hxy hyz]
          · by_cases hzy : z < y
            · simp [chListLe, hyz, hzy] at h2
            · have : y = z := le_antisymm (not_lt.mp hzy) (not_lt.mp hyz)
              subst this
              simp [chListLe, hxy]
        · by_cases hyx : y < x
          · simp [chListLe, hxy, hyx] at h1
          · have hxyeq : x = y := le_antisymm (not_lt.mp hyx) (not_lt.mp hxy)
            subst hxyeq
            simp only [chListLe, if_neg (lt_irrefl x)] at h1
            by_cases hyz : x < z
            · simp [chListLe, hyz]
            · by_cases hzy : z < x
              · simp [chListLe, hyz, hzy] at h2
              · have : x = z := le_antisymm (not_lt.mp hzy) (not_lt.mp hyz)
                subst this
                simp only [chListLe, if_neg (lt_irrefl x)] at h2 ⊢
                exact ih _ _ h1 h2

instance : IsTotal Filing filingDesc :=
  ⟨fun a b => (chListLe_total b.2.2.toList a.2.2.toList).imp id id⟩

instance : IsTrans Filing filingDesc :=
  ⟨fun _ _ _ h1 h2 => chListLe_trans _ _ _ h2 h1⟩

theorem fetchLoop_eq_some (http : String → Option (Nat × String)) (urls : List String)
    (body : String) (h : fetchLoop http urls = some body) :
    ∃ url ∈ urls, http url = some (200, body) := by
  induction urls with
  | nil => simp [fetchLoop] at h
  | cons u rest ih =>
    rw [fetchLoop] at h
    cases hu : http u with
    | none =>
      simp only [hu] at h
      obtain ⟨url, hmem, hurl⟩ := ih h
      exact ⟨url, List.mem_cons_of_mem _ hmem, hurl⟩
    | some cb =>
      obtain ⟨code, b⟩ := cb
      simp only [hu] at h
      by_cases hc : code = 200
      · subst hc
        simp at h
        subst h
        exact ⟨u, List.mem_cons_self _ _, hu⟩
      · simp only [if_neg hc] at h
        obtain ⟨url, hmem, hurl⟩ := ih h
        exact ⟨url, List.mem_cons_of_mem _ hmem, hurl⟩

/-! ### Concrete fixtures -/

/-- A transport answering every URL with HTTP 200 and a body that is not a
holdings table. -/
def c5http : String → Option (Nat × String) := fun _ => some (200, "hello")

/-- A submission index with three eligible filings and one other form. -/
def c4recent : List Filing :=
  [("13F-HR", "accB", "2025-02-14"),
   ("13F-HR", "accA", "2025-05-15"),
   ("10-K", "accX", "2025-03-01"),
   ("13F-HR", "accC", "2024-11-14")]

/-- The eligible filings of c4recent sorted newest first. -/
def c4sorted : List Filing :=
  [("13F-HR", "accA", "2025-05-15"),
   ("13F-HR", "accB", "2025-02-14"),
   ("13F-HR", "accC", "2024-11-14")]

/-- Per-accession content: the second-newest filing is a cover page that
fails the spec's shape check, the third-newest is a holdings table that
passes it. -/
def c4fetch : String → Option String := fun acc =>
  if acc == "accB" then some "submission cover page"
  else if acc == "accC" then some "<informationTable><nameOfIssuer>ACME</nameOfIssuer>"
  else none

/-- A submission index with exactly two eligible filings. -/
def c1recent : List Filing :=
  [("13F-HR", "0001-25-000001", "2025-05-15"),
   ("13F-HR", "0001-24-000002", "2025-02-14")]

/-- A transport serving only the current-period accession: every URL of
the previous-period document answers 404. -/
def c1http : String → Option (Nat × String) := fun u =>
  if pyIn "000125000001" u then some (200, "<informationTable/>") else some (404, "")

/-- An XML reader that always fails; the runs using it error out before
parsing. -/
def etNone : String → Option XmlElem := fun _ => none

/-! ### C9 -/

/-- C9 (counterexample): constructing the analyzer with the client label
"Investment Research", which contains no "@" token, succeeds; no
validation failure of any kind occurs, contradicting the claim that
construction fails with a ConfigError. -/
theorem c9_counterexample :
    pyIn "@" "Investment Research" = false ∧
    SEC13FAnalyzer.init "Investment Research" =
      Except.ok { headers := [("User-Agent", "Investment Research")],
                  tickers := ticker_mapping } :=
  ⟨by decide, rfl⟩

/-- C9 (amended): the constructor performs no validation at all: for every
client-identification label, with or without an "@" token, construction
succeeds and simply stores the label in the session headers. -/
theorem c9_init_never_fails (user_agent : String) :
    SEC13FAnalyzer.init user_agent =
      Except.ok { headers := [("User-Agent", user_agent)], tickers := ticker_mapping } := rfl

/-! ### C5 -/

/-- C5 (counterexample): the content fetcher returns the body "hello" of
the first HTTP-200 answer even though that body fails the spec's
shape/validity predicate, contradicting the claim that a payload is
returned only if it passes the predicate. -/
theorem c5_counterexample :
    fetch_13f_xml c5http 1 "0001-25-000001" = some "hello" ∧
    shape_check_spec "hello" = false := by decide

/-- C5 (amended): the fetcher performs no shape or content check: whenever
it returns a payload, that payload is exactly the body of an HTTP-200
answer at one of the four fixed candidate URLs, whatever its content. -/
theorem c5_fetch_no_shape_check (http : String → Option (Nat × String)) (cik_int : Nat)
    (accession_number : String) (body : String)
    (h : fetch_13f_xml http cik_int accession_number = some body) :
    ∃ url ∈ possible_urls cik_int (removeDashes accession_number),
      http url = some (200, body) :=
  fetchLoop_eq_some http _ body h

/-- Witness for C5: the amended theorem applied at the concrete transport
and accession of the counterexample scenario. -/
theorem c5_fetch_no_shape_check_witness :
    ∃ url ∈ possible_urls 1 (removeDashes "0001-25-000001"),
      c5http url = some (200, "hello") :=
  c5_fetch_no_shape_check c5http 1 "0001-25-000001" "hello" (by decide)

/-! ### C4 -/

/-- C4 (counterexample): on a concrete submission index the locator
returns the chronologically second eligible accession (accB) without
fetching or shape-checking anything, while the claimed scan-ahead
procedure (modelled from the spec) would skip the invalid accB and select
accC; the two disagree. -/
theorem c4_counterexample :
    get_recent_13f_filings c4recent = Except.ok ("accA", "accB") ∧
    List.insertionSort filingDesc (c4recent.filter eligibleForm) = c4sorted ∧
    select_previous_spec c4fetch c4sorted = some "accC" ∧
    ("accB" : String) ≠ "accC" := by decide

/-- C4 (amended): the locator sorts the eligible disclosures descending by
date and unconditionally returns the first two accession numbers; no
candidate content is fetched and no shape check is involved in the
choice. -/
theorem c4_locator_takes_second_unconditionally (recent : List Filing)
    (h : 2 ≤ (recent.filter eligibleForm).length) :
    ∃ c p rest,
      List.insertionSort filingDesc (recent.filter eligibleForm) = c :: p :: rest ∧
      List.Pairwise filingDesc (c :: p :: rest) ∧
      get_recent_13f_filings recent = Except.ok (c.2.1, p.2.1) := by
  have hlen : (List.insertionSort filingDesc (recent.filter eligibleForm)).length =
      (recent.filter eligibleForm).length :=
    (List.perm_insertionSort filingDesc (recent.filter eligibleForm)).length_eq
  rcases hs : List.insertionSort filingDesc (recent.filter eligibleForm) with _ | ⟨c, _ | ⟨p, rest⟩⟩
  · rw [hs] at hlen; simp at hlen; omega
  · rw [hs] at hlen; simp at hlen; omega
  · refine ⟨c, p, rest, rfl, ?_, ?_⟩
    · rw [← hs]
      exact List.sorted_insertionSort filingDesc (recent.filter eligibleForm)
    · unfold get_recent_13f_filings
      rw [if_neg (by omega), hs]

/-- Witness for C4: the amended theorem applied to the concrete index of
the counterexample. -/
theorem c4_locator_witness :
    ∃ c p rest,
      List.insertionSort filingDesc (c4recent.filter eligibleForm) = c :: p :: rest ∧
      List.Pairwise filingDesc (c :: p :: rest) ∧
      get_recent_13f_filings c4recent = Except.ok (c.2.1, p.2.1) :=
  c4_locator_takes_second_unconditionally c4recent (by decide)

/-! ### C1 -/

/-- C1 (counterexample): with the current-period document served and every
previous-period candidate answering 404 (the fetcher returns no payload),
the analysis run fails with the raised previous-quarter error instead of
continuing with an empty previous snapshot; the run's result carries no
hasPreviousData field at all. -/
theorem c1_counterexample :
    analyze_institution c1recent c1http etNone "1" =
      Except.error "Could not fetch previous quarter XML" := by decide

/-- C1 (amended): a missing (or empty) previous-period payload is exactly
as fatal as a missing current-period one: whenever the locator succeeds,
the current-period fetch yields a truthy payload and the previous-period
fetch does not, the whole run fails with the previous-quarter error. -/
theorem c1_previous_fetch_failure_fatal (recent : List Filing)
    (http : String → Option (Nat × String)) (etParse : String → Option XmlElem)
    (cik ca pa : String)
    (h1 : get_recent_13f_filings recent = Except.ok (ca, pa))
    (h2 : optTruthy (fetch_13f_xml http (strToNat cik) ca) = true)
    (h3 : optTruthy (fetch_13f_xml http (strToNat cik) pa) = false) :
    analyze_institution recent http etParse cik =
      Except.error "Could not fetch previous quarter XML" := by
  unfold analyze_institution
  rw [h1]
  simp [h2, h3]

/-- Witness for C1: the amended theorem applied at the concrete index and
transport, for a different institution identifier than the
counterexample. -/
theorem c1_previous_fetch_failure_fatal_witness :
    analyze_institution c1recent c1http etNone "7" =
      Except.error "Could not fetch previous quarter XML" :=
  c1_previous_fetch_failure_fatal c1recent c1http etNone "7"
    "0001-25-000001" "0001-24-000002" (by decide) (by decide) (by decide)

/-! ### C2 -/

/-- A minimal analysis row carrying only a weight change. -/
def c2row (wc : ℚ) : AnalysisRow :=
  { cusip := "", company_name := "", ticker := "", current_value := 0, previous_value := 0,
    weight_current := 0, weight_previous := 0, weight_change := wc, status := "" }

/-- Twenty-one rows, all with strictly positive weight change. -/
def c2rows : List AnalysisRow :=
  [c2row 1, c2row 2, c2row 3, c2row 4, c2row 5, c2row 6, c2row 7,
   c2row 8, c2row 9, c2row 10, c2row 11, c2row 12, c2row 13, c2row 14,
   c2row 15, c2row 16, c2row 17, c2row 18, c2row 19, c2row 20, c2row 21]

/-- C2 (counterexample): on twenty-one rows with positive weight change
the generated Buys table has 20 entries, contradicting the claimed
truncation of Buys to at most 10.  (The rows of the source carry no
share-count fields at all, so the claimed share-count filter condition is
not expressible over them either.) -/
theorem c2_counterexample :
    (generate_tables c2rows).2.1.length = 20 ∧
    ¬ (generate_tables c2rows).2.1.length ≤ 10 := by decide

/-- The take of twenty rows is at most twenty rows long. -/
theorem take20_length_le (l : List AnalysisRow) : (l.take 20).length ≤ 20 := by
  rw [List.length_take]; exact min_le_left _ _

/-- C2 (amended): the table generator returns Holdings sorted descending
by current weight and truncated to at most 20; Buys exactly the rows with
strictly positive weight change, sorted descending by weight change and
truncated to at most 20 (not 10); Sells exactly the rows with strictly
negative weight change, sorted ascending by weight change and truncated
to at most 20.  No share-count condition exists: the rows carry no
share-count data.  Exactness is stated as soundness of every emitted row
plus completeness whenever the filtered rows fit the truncation bound. -/
theorem c2_tables_characterization (rows : List AnalysisRow) :
    ((generate_tables rows).1.length ≤ 20 ∧
     (generate_tables rows).2.1.length ≤ 20 ∧
     (generate_tables rows).2.2.length ≤ 20) ∧
    (List.Pairwise (fun a b => b.weight_current ≤ a.weight_current) (generate_tables rows).1 ∧
     List.Pairwise (fun a b => b.weight_change ≤ a.weight_change) (generate_tables rows).2.1 ∧
     List.Pairwise (fun a b => a.weight_change ≤ b.weight_change) (generate_tables rows).2.2) ∧
    ((∀ r ∈ (generate_tables rows).1, r ∈ rows) ∧
     (∀ r ∈ (generate_tables rows).2.1, r ∈ rows ∧ 0 < r.weight_change) ∧
     (∀ r ∈ (generate_tables rows).2.2, r ∈ rows ∧ r.weight_change < 0)) ∧
    ((rows.length ≤ 20 → ∀ r ∈ rows, r ∈ (generate_tables rows).1) ∧
     ((rows.filter (fun x => decide (0 < x.weight_change))).length ≤ 20 →
       ∀ r ∈ rows, 0 < r.weight_change → r ∈ (generate_tables rows).2.1) ∧
     ((rows.filter (fun x => decide (x.weight_change < 0))).length ≤ 20 →
       ∀ r ∈ rows, r.weight_change < 0 → r ∈ (generate_tables rows).2.2)) := by
  haveI i1 : IsTotal AnalysisRow (fun a b => b.weight_current ≤ a.weight_current) :=
    ⟨fun _ _ => le_total _ _⟩
  haveI i2 : IsTrans AnalysisRow (fun a b => b.weight_current ≤ a.weight_current) :=
    ⟨fun _ _ _ h1 h2 => le_trans h2 h1⟩
  haveI i3 : IsTotal AnalysisRow (fun a b => b.weight_change ≤ a.weight_change) :=
    ⟨fun _ _ => le_total _ _⟩
  haveI i4 : IsTrans AnalysisRow (fun a b => b.weight_change ≤ a.weight_change) :=
    ⟨fun _ _ _ h1 h2 => le_trans h2 h1⟩
  haveI i5 : IsTotal AnalysisRow (fun a b => a.weight_change ≤ b.weight_change) :=
    ⟨fun _ _ => le_total _ _⟩
  haveI i6 : IsTrans AnalysisRow (fun a b => a.weight_change ≤ b.weight_change) :=
    ⟨fun _ _ _ h1 h2 => le_trans h1 h2⟩
  refine ⟨⟨take20_length_le _, take20_length_le _, take20_length_le _⟩, ⟨?_, ?_, ?_⟩,
    ⟨?_, ?_, ?_⟩, ⟨?_, ?_, ?_⟩⟩
  · exact List.Pairwise.sublist (List.take_sublist _ _) (List.sorted_insertionSort _ rows)
  · exact List.Pairwise.sublist (List.take_sublist _ _) (List.sorted_insertionSort _ _)
  · exact List.Pairwise.sublist (List.take_sublist _ _) (List.sorted_insertionSort _ _)
  · intro r hr
    exact (List.mem_insertionSort _).mp (List.mem_of_mem_take hr)
  · intro r hr
    have := (List.mem_insertionSort _).mp (List.mem_of_mem_take hr)
    have := List.mem_filter.mp this
    exact ⟨this.1, of_decide_eq_true this.2⟩
  · intro r hr
    have := (List.mem_insertionSort _).mp (List.mem_of_mem_take hr)
    have := List.mem_filter.mp this
    exact ⟨this.1, of_decide_eq_true this.2⟩
  · intro hlen r hr
    show r ∈ (List.insertionSort _ rows).take 20
    rw [List.take_of_length_le]
    · exact (List.mem_insertionSort _).mpr hr
    · rw [(List.perm_insertionSort _ rows).length_eq]; exact hlen
  · intro hlen r hr hpos
    show r ∈ (List.insertionSort _ _).take 20
    rw [List.take_of_length_le]
    · exact (List.mem_insertionSort _).mpr (List.mem_filter.mpr ⟨hr, decide_eq_true hpos⟩)
    · rw [(List.perm_insertionSort _ _).length_eq]; exact hlen
  · intro hlen r hr hneg
    show r ∈ (List.insertionSort _ _).take 20
    rw [List.take_of_length_le]
    · exact (List.mem_insertionSort _).mpr (List.mem_filter.mpr ⟨hr, decide_eq_true hneg⟩)
    · rw [(List.perm_insertionSort _ _).length_eq]; exact hlen

/-! ### Lemmas about the change calculator -/

theorem hdName_mkHolding (n : String) (v : ℚ) : hdName (mkHolding n v) = n := rfl

theorem hdValue_mkHolding (n : String) (v : ℚ) : hdValue (mkHolding n v) = v := rfl

theorem makeRow_cusip (tc tp : ℚ) (cur prev : Snapshot) (k : String) :
    (makeRow tc tp cur prev k).cusip = k := rfl

theorem makeRow_current_value (tc tp : ℚ) (cur prev : Snapshot) (k : String) :
    (makeRow tc tp cur prev k).current_value = lookVal cur k := rfl

theorem makeRow_previous_value (tc tp : ℚ) (cur prev : Snapshot) (k : String) :
    (makeRow tc tp cur prev k).previous_value = lookVal prev k := rfl

theorem makeRow_weight_current (tc tp : ℚ) (cur prev : Snapshot) (k : String) :
    (makeRow tc tp cur prev k).weight_current = lookVal cur k / tc * 100 := rfl

theorem makeRow_status (tc tp : ℚ) (cur prev : Snapshot) (k : String) :
    (makeRow tc tp cur prev k).status =
      (if lookVal prev k = 0 then "NEW"
       else if lookVal cur k = 0 then "EXIT" else "CHANGE") := rfl

theorem makeRow_company_name (tc tp : ℚ) (cur prev : Snapshot) (k : String) :
    (makeRow tc tp cur prev k).company_name =
      (if lookName cur k ≠ "" then lookName cur k else lookName prev k) := rfl

theorem mem_dedupFirst {x : String} : ∀ {l : List String}, x ∈ dedupFirst l ↔ x ∈ l := by
  intro l
  induction l with
  | nil => simp [dedupFirst]
  | cons k rest ih =>
    by_cases h : x = k
    · subst h
      simp [dedupFirst]
    · simp only [dedupFirst, List.mem_cons, List.mem_filter, bne_iff_ne]
      constructor
      · rintro (rfl | ⟨hm, _⟩)
        · exact Or.inl rfl
        · exact Or.inr (ih.mp hm)
      · rintro (rfl | hm)
        · exact Or.inl rfl
        · exact Or.inr ⟨ih.mpr hm, h⟩

theorem nodup_dedupFirst : ∀ (l : List String), (dedupFirst l).Nodup := by
  intro l
  induction l with
  | nil => simp [dedupFirst]
  | cons k rest ih =>
    rw [dedupFirst, List.nodup_cons]
    constructor
    · intro hmem
      exact (bne_iff_ne.mp (List.mem_filter.mp hmem).2) rfl
    · exact List.Nodup.filter _ ih

theorem lookVal_cons (a : String) (d : HoldingDict) (rest : Snapshot) (k : String) :
    lookVal ((a, d) :: rest) k = if k = a then hdValue d else lookVal rest k := by
  by_cases h : k = a
  · subst h
    simp [lookVal, List.lookup_cons]
  · have hb : (k == a) = false := beq_eq_false_iff_ne.mpr h
    simp [lookVal, List.lookup_cons, hb, h]

theorem lookVal_eq_zero_of_not_mem {s : Snapshot} {k : String}
    (h : k ∉ s.map Prod.fst) : lookVal s k = 0 := by
  have hnone : List.lookup k s = none := by
    rw [List.lookup_eq_none_iff]
    intro p hp
    exact bne_iff_ne.mpr (fun he => h (he ▸ List.mem_map_of_mem Prod.fst hp))
  simp [lookVal, hnone, emptyHolding, hdValue_mkHolding]

theorem sum_map_add_q (L : List String) (f g : String → ℚ) :
    (L.map (fun k => f k + g k)).sum = (L.map f).sum + (L.map g).sum := by
  induction L with
  | nil => simp
  | cons a t ih => simp only [List.map_cons, List.sum_cons, ih]; ring

theorem sum_map_mul_const (L : List String) (f : String → ℚ) (c : ℚ) :
    (L.map (fun k => f k * c)).sum = (L.map f).sum * c := by
  induction L with
  | nil => simp
  | cons a t ih => simp only [List.map_cons, List.sum_cons, ih]; ring

theorem sum_map_ite_of_not_mem (L : List String) (a : String) (c : ℚ) (ha : a ∉ L) :
    (L.map (fun k => if k = a then c else 0)).sum = 0 := by
  induction L with
  | nil => simp
  | cons x t ih =>
    simp only [List.mem_cons, not_or] at ha
    have hx : ¬x = a := fun (h : x = a) => ha.1 h.symm
    simp only [List.map_cons, List.sum_cons, if_neg hx, zero_add]
    exact ih ha.2

theorem sum_map_ite (L : List String) (a : String) (c : ℚ) (hnd : L.Nodup) (ha : a ∈ L) :
    (L.map (fun k => if k = a then c else 0)).sum = c := by
  induction L with
  | nil => simp at ha
  | cons x t ih =>
    rcases List.mem_cons.mp ha with h | h
    · subst h
      have hxt : a ∉ t := (List.nodup_cons.mp hnd).1
      simp [sum_map_ite_of_not_mem t a c hxt]
    · have hx : ¬x = a := by
        rintro rfl
        exact (List.nodup_cons.mp hnd).1 h
      simp only [List.map_cons, List.sum_cons, if_neg hx, zero_add]
      exact ih (List.nodup_cons.mp hnd).2 h

theorem sum_lookVal (K : List String) (hK : K.Nodup) :
    ∀ (cur : Snapshot), (cur.map Prod.fst).Nodup → (∀ k ∈ cur.map Prod.fst, k ∈ K) →
      (K.map (lookVal cur)).sum = totalValue cur := by
  intro cur
  induction cur with
  | nil =>
    intro _ _
    have hz : ∀ k ∈ K, lookVal [] k = 0 := fun _ _ => rfl
    rw [List.map_congr_left hz]
    simp [totalValue]
  | cons hd rest ih =>
    obtain ⟨a, d⟩ := hd
    intro hcur hsub
    simp only [List.map_cons] at hcur hsub
    have ha : a ∈ K := hsub a (List.mem_cons_self _ _)
    have hnotin : a ∉ rest.map Prod.fst := (List.nodup_cons.mp hcur).1
    have hrest : (rest.map Prod.fst).Nodup := (List.nodup_cons.mp hcur).2
    have hsub2 : ∀ k ∈ rest.map Prod.fst, k ∈ K := fun k hk =>
      hsub k (List.mem_cons_of_mem _ hk)
    have step : ∀ k ∈ K,
        lookVal ((a, d) :: rest) k = lookVal rest k + (if k = a then hdValue d else 0) := by
      intro k _
      rw [lookVal_cons]
      by_cases h : k = a
      · subst h
        rw [if_pos rfl, if_pos rfl, lookVal_eq_zero_of_not_mem hnotin, zero_add]
      · rw [if_neg h, if_neg h, add_zero]
    rw [List.map_congr_left step, sum_map_add_q, ih hrest hsub2,
      sum_map_ite K a (hdValue d) hK ha]
    simp only [totalValue, List.map_cons, List.sum_cons]
    ring

/-! ### C6 -/

/-- C6: for every pair of snapshots handed to the change calculator (the
current one with unique keys, as every Python dictionary has, and a
nonzero total value), the current weights over the rows with nonzero
current value sum to exactly 100; and the divisor used for the weights is
never zero, because a zero total is floored to 1.  The arithmetic is
exact over the rationals. -/
theorem c6_weights_sum_to_100 (cur prev : Snapshot)
    (hnd : (cur.map Prod.fst).Nodup) (hT : totalValue cur ≠ 0) :
    ((calculate_portfolio_changes cur prev).map
      (fun r => if r.current_value = 0 then 0 else r.weight_current)).sum = 100 ∧
    pyOr1 (totalValue cur) ≠ 0 := by
  have hTc : pyOr1 (totalValue cur) = totalValue cur := if_neg hT
  constructor
  · have hK : (all_cusips cur prev).Nodup := nodup_dedupFirst _
    have hsub : ∀ k ∈ cur.map Prod.fst, k ∈ all_cusips cur prev := by
      intro k hk
      exact mem_dedupFirst.mpr (List.mem_append_left _ hk)
    simp only [calculate_portfolio_changes, List.map_map]
    have hrow : ∀ k ∈ all_cusips cur prev,
        ((fun r : AnalysisRow => if r.current_value = 0 then 0 else r.weight_current) ∘
          makeRow (pyOr1 (totalValue cur)) (pyOr1 (totalValue prev)) cur prev) k =
        lookVal cur k * (100 / totalValue cur) := by
      intro k _
      simp only [Function.comp_apply, makeRow_current_value, makeRow_weight_current]
      rw [hTc]
      by_cases h : lookVal cur k = 0
      · rw [if_pos h, h]
        ring
      · rw [if_neg h, div_mul_eq_mul_div, mul_div_assoc]
    rw [List.map_congr_left hrow, sum_map_mul_const,
      sum_lookVal (all_cusips cur prev) hK cur hnd hsub]
    field_simp
  · rw [hTc]; exact hT

/-- A two-position current snapshot for the C6 witness. -/
def c6cur : Snapshot := [("K1", mkHolding "ACME" 60), ("K2", mkHolding "BETA" 40)]

/-- Witness for C6: the theorem applied to a concrete two-position
snapshot with an empty previous snapshot. -/
theorem c6_weights_sum_witness :
    ((calculate_portfolio_changes c6cur []).map
      (fun r => if r.current_value = 0 then 0 else r.weight_current)).sum = 100 ∧
    pyOr1 (totalValue c6cur) ≠ 0 :=
  c6_weights_sum_to_100 c6cur [] (by decide)
    (by norm_num [totalValue, c6cur, hdValue_mkHolding])

/-! ### C7 and C10 -/

theorem mem_of_lookup_eq_some {s : Snapshot} {k : String} {d : HoldingDict}
    (h : List.lookup k s = some d) : (k, d) ∈ s := by
  obtain ⟨l₁, l₂, rfl, _⟩ := List.lookup_eq_some_iff.mp h
  exact List.mem_append_right _ (List.mem_cons_self _ _)

theorem lookVal_nonneg_of (prev : Snapshot) (k : String)
    (hprev : ∀ p ∈ prev, 0 ≤ hdValue p.2) : 0 ≤ lookVal prev k := by
  unfold lookVal
  cases h : List.lookup k prev with
  | none => simp [emptyHolding, hdValue_mkHolding]
  | some d => simpa using hprev (k, d) (mem_of_lookup_eq_some h)

/-- C7: for every analysis row produced by the change calculator from a
previous snapshot with non-negative market values (the data model's
invariant on parsed snapshots), the status is NEW exactly when the
previous value is zero, EXIT exactly when the current value is zero and
the previous value strictly positive, and CHANGE exactly in the remaining
case. -/
theorem c7_status_rules (cur prev : Snapshot) (r : AnalysisRow)
    (hprev : ∀ p ∈ prev, 0 ≤ hdValue p.2)
    (hr : r ∈ calculate_portfolio_changes cur prev) :
    (r.status = "NEW" ↔ r.previous_value = 0) ∧
    (r.status = "EXIT" ↔ (r.current_value = 0 ∧ 0 < r.previous_value)) ∧
    (r.status = "CHANGE" ↔ (0 < r.previous_value ∧ r.current_value ≠ 0)) := by
  simp only [calculate_portfolio_changes] at hr
  obtain ⟨k, hk, rfl⟩ := List.mem_map.mp hr
  rw [makeRow_status, makeRow_previous_value, makeRow_current_value]
  have hpv : 0 ≤ lookVal prev k := lookVal_nonneg_of prev k hprev
  by_cases h1 : lookVal prev k = 0
  · rw [if_pos h1]
    refine ⟨⟨fun _ => h1, fun _ => rfl⟩, ?_, ?_⟩
    · constructor
      · intro h; exact absurd h (by decide)
      · rintro ⟨_, hlt⟩; rw [h1] at hlt; exact absurd hlt (lt_irrefl 0)
    · constructor
      · intro h; exact absurd h (by decide)
      · rintro ⟨hlt, _⟩; rw [h1] at hlt; exact absurd hlt (lt_irrefl 0)
  · have hpos : 0 < lookVal prev k := lt_of_le_of_ne hpv (Ne.symm h1)
    rw [if_neg h1]
    by_cases h2 : lookVal cur k = 0
    · rw [if_pos h2]
      refine ⟨?_, ⟨fun _ => ⟨h2, hpos⟩, fun _ => rfl⟩, ?_⟩
      · constructor
        · intro h; exact absurd h (by decide)
        · intro h; exact absurd h h1
      · constructor
        · intro h; exact absurd h (by decide)
        · rintro ⟨_, hne⟩; exact absurd h2 hne
    · rw [if_neg h2]
      refine ⟨?_, ?_, ⟨fun _ => ⟨hpos, h2⟩, fun _ => rfl⟩⟩
      · constructor
        · intro h; exact absurd h (by decide)
        · intro h; exact absurd h h1
      · constructor
        · intro h; exact absurd h (by decide)
        · rintro ⟨hc, _⟩; exact absurd hc h2

/-- A one-position current snapshot for the C7 witness. -/
def c7cur : Snapshot := [("K", mkHolding "ACME" 100)]

/-- The single row the calculator produces from c7cur and an empty
previous snapshot. -/
def c7rowW : AnalysisRow :=
  makeRow (pyOr1 (totalValue c7cur)) (pyOr1 (totalValue ([] : Snapshot))) c7cur [] "K"

/-- Witness for C7: the status rules instantiated at the concrete row. -/
theorem c7_status_rules_witness :
    (c7rowW.status = "NEW" ↔ c7rowW.previous_value = 0) ∧
    (c7rowW.status = "EXIT" ↔ (c7rowW.current_value = 0 ∧ 0 < c7rowW.previous_value)) ∧
    (c7rowW.status = "CHANGE" ↔ (0 < c7rowW.previous_value ∧ c7rowW.current_value ≠ 0)) :=
  c7_status_rules c7cur [] c7rowW (by simp)
    (by
      show c7rowW ∈ (all_cusips c7cur []).map
        (makeRow (pyOr1 (totalValue c7cur)) (pyOr1 (totalValue ([] : Snapshot))) c7cur [])
      rw [show all_cusips c7cur [] = ["K"] from by decide]
      exact List.mem_map_of_mem _ (List.mem_singleton.mpr rfl))

/-- C10: every analysis row's company name is the current snapshot's name
for the row's key whenever that is non-empty, and the previous snapshot's
name otherwise; it is empty exactly when both are empty. -/
theorem c10_company_name_preference (cur prev : Snapshot) (r : AnalysisRow)
    (hr : r ∈ calculate_portfolio_changes cur prev) :
    r.company_name = (if lookName cur r.cusip ≠ "" then lookName cur r.cusip
                      else lookName prev r.cusip) ∧
    (r.company_name = "" ↔ (lookName cur r.cusip = "" ∧ lookName prev r.cusip = "")) := by
  simp only [calculate_portfolio_changes] at hr
  obtain ⟨k, hk, rfl⟩ := List.mem_map.mp hr
  rw [makeRow_company_name, makeRow_cusip]
  refine ⟨rfl, ?_⟩
  by_cases h1 : lookName cur k = ""
  · by_cases h2 : lookName prev k = "" <;> simp [h1, h2]
  · simp [h1]

/-- A current snapshot whose entry has an empty name, for the C10
witness. -/
def c10cur : Snapshot := [("K", mkHolding "" 5)]

/-- A previous snapshot carrying the name, for the C10 witness. -/
def c10prev : Snapshot := [("K", mkHolding "OLDCO" 7)]

/-- The single row the calculator produces from c10cur and c10prev. -/
def c10rowW : AnalysisRow :=
  makeRow (pyOr1 (totalValue c10cur)) (pyOr1 (totalValue c10prev)) c10cur c10prev "K"

/-- Witness for C10: the name-preference rule instantiated at the
concrete row, whose current-period name is empty. -/
theorem c10_company_name_witness :
    c10rowW.company_name = (if lookName c10cur c10rowW.cusip ≠ "" then
        lookName c10cur c10rowW.cusip else lookName c10prev c10rowW.cusip) ∧
    (c10rowW.company_name = "" ↔
      (lookName c10cur c10rowW.cusip = "" ∧ lookName c10prev c10rowW.cusip = "")) :=
  c10_company_name_preference c10cur c10prev c10rowW
    (by
      show c10rowW ∈ (all_cusips c10cur c10prev).map
        (makeRow (pyOr1 (totalValue c10cur)) (pyOr1 (totalValue c10prev)) c10cur c10prev)
      rw [show all_cusips c10cur c10prev = ["K"] from by decide]
      exact List.mem_map_of_mem _ (List.mem_singleton.mpr rfl))

/-! ### C3 and C8: the structured-markup parser on concrete payloads -/

/-- A leaf element with text. -/
def leafE (tag txt : String) : XmlElem := ⟨tag, some txt, []⟩

/-- The element tree the XML library yields for the minimal one-row
payload: one information table row with issuer ACME CORP, identifier
123456789, value 1000 (in thousands) and a share count 5000 inside the
shrsOrPrnAmt group. -/
def acmeTable : XmlElem :=
  ⟨"infoTable", none,
    [leafE "nameOfIssuer" "ACME CORP",
     leafE "cusip" "123456789",
     leafE "value" "1000",
     ⟨"shrsOrPrnAmt", none, [leafE "sshPrnamt" "5000"]⟩]⟩

/-- The root of the minimal one-row payload. -/
def acmeRoot : XmlElem := ⟨"informationTable", none, [acmeTable]⟩

/-- The element tree for a two-row payload whose rows share the 8-character
key 12345678: values 0.1 and 0.2 thousands (100 and 200 base units), share
counts 10 and 20, distinct issuer names. -/
def c8root : XmlElem :=
  ⟨"informationTable", none,
    [⟨"infoTable", none,
      [leafE "nameOfIssuer" "First Name Co",
       leafE "cusip" "123456789",
       leafE "value" "0.1",
       ⟨"shrsOrPrnAmt", none, [leafE "sshPrnamt" "10"]⟩]⟩,
     ⟨"infoTable", none,
      [leafE "nameOfIssuer" "Second Name Co",
       leafE "cusip" "123456780",
       leafE "value" "0.2",
       ⟨"shrsOrPrnAmt", none, [leafE "sshPrnamt" "20"]⟩]⟩]⟩

/-- C3 (counterexample): parsing the minimal one-row payload yields the
key 12345678 bound to a record holding exactly the two fields
company_name and market_value; the share count 5000 present in the
payload is nowhere in the result, contradicting the claim that the
record carries share count 5000. -/
theorem c3_counterexample :
    parse_13f_xml_fromRoot acmeRoot true =
      [("12345678", [("company_name", PyVal.str "ACME CORP"),
                     ("market_value", PyVal.num 1000000)])] := by
  have h : parse_13f_xml_fromRoot acmeRoot true =
      [("12345678", [("company_name", PyVal.str "ACME CORP"),
                     ("market_value", PyVal.num ((0 : ℚ) + 1000 * 1000))])] := rfl
  rw [h]
  norm_num

/-- C3 (amended): parsing the minimal one-row payload yields a snapshot
whose single key is the 8-character prefix 12345678, with company name
ACME CORP and market value 1,000,000 base units; the parser extracts no
share count. -/
theorem c3_structured_parse_roundtrip :
    (parse_13f_xml_fromRoot acmeRoot true).map Prod.fst = ["12345678"] ∧
    hdName (((parse_13f_xml_fromRoot acmeRoot true).lookup "12345678").getD emptyHolding) =
      "ACME CORP" ∧
    hdValue (((parse_13f_xml_fromRoot acmeRoot true).lookup "12345678").getD emptyHolding) =
      1000000 := by
  refine ⟨rfl, rfl, ?_⟩
  have h : hdValue (((parse_13f_xml_fromRoot acmeRoot true).lookup "12345678").getD
      emptyHolding) = ((0 : ℚ) + 1000 * 1000) := rfl
  rw [h]
  norm_num

/-! Key-uniqueness of parsed snapshots. -/

theorem snapUpdate_keys (s : Snapshot) (key issuer : String) (mv : ℚ) :
    (snapUpdate s key issuer mv).map Prod.fst =
      if key ∈ s.map Prod.fst then s.map Prod.fst else s.map Prod.fst ++ [key] := by
  induction s with
  | nil => simp [snapUpdate]
  | cons hd rest ih =>
    obtain ⟨k, d⟩ := hd
    by_cases h : k = key
    · subst h
      simp [snapUpdate]
    · simp only [snapUpdate, if_neg h, List.map_cons, ih]
      by_cases hm : key ∈ rest.map Prod.fst
      · rw [if_pos hm, if_pos (List.mem_cons_of_mem _ hm)]
      · have hne : ¬key ∈ k :: rest.map Prod.fst := by
          simp only [List.mem_cons, not_or]
          exact ⟨fun he => h he.symm, hm⟩
        rw [if_neg hm, if_neg hne, List.cons_append]

theorem snapUpdate_nodup (s : Snapshot) (key issuer : String) (mv : ℚ)
    (h : (s.map Prod.fst).Nodup) :
    ((snapUpdate s key issuer mv).map Prod.fst).Nodup := by
  rw [snapUpdate_keys]
  by_cases hm : key ∈ s.map Prod.fst
  · rwa [if_pos hm]
  · rw [if_neg hm]
    simp [List.nodup_append, h, hm]

theorem processInfoTable_nodup (agg : Bool) (s : Snapshot) (t : XmlElem)
    (h : (s.map Prod.fst).Nodup) :
    ((processInfoTable agg s t).map Prod.fst).Nodup := by
  rcases hrf : rowFields t with _ | ⟨i, c, m⟩
  · simp only [processInfoTable, hrf]
    exact h
  · simp only [processInfoTable, hrf]
    exact snapUpdate_nodup _ _ _ _ h

theorem parse_13f_xml_fromRoot_keys_nodup (root : XmlElem) (agg : Bool) :
    ((parse_13f_xml_fromRoot root agg).map Prod.fst).Nodup := by
  rw [parse_13f_xml_fromRoot]
  have hgen : ∀ (ts : List XmlElem) (acc : Snapshot), (acc.map Prod.fst).Nodup →
      ((ts.foldl (processInfoTable agg) acc).map Prod.fst).Nodup := by
    intro ts
    induction ts with
    | nil =>
      intro acc h
      simpa using h
    | cons t rest ih =>
      intro acc h
      exact ih _ (processInfoTable_nodup _ _ _ h)
  exact hgen _ [] (by simp)

/-- C8 (counterexample): parsing the two-row payload whose rows share the
key 12345678 and carry share counts 10 and 20 yields one combined record
with exactly the fields company_name and market_value; market values are
summed (100 + 200 = 300 base units) but no share count exists anywhere in
the result, contradicting the claimed summation of share counts. -/
theorem c8_counterexample :
    parse_13f_xml_fromRoot c8root true =
      [("12345678", [("company_name", PyVal.str "FIRST NAME CO"),
                     ("market_value", PyVal.num 300)])] := by
  have h : parse_13f_xml_fromRoot c8root true =
      [("12345678", [("company_name", PyVal.str "FIRST NAME CO"),
                     ("market_value",
                       PyVal.num (((0 : ℚ) + ((0 : ℚ) + (1 : ℚ) / (10 : ℚ) ^ 1) * 1000)
                         + ((0 : ℚ) + (2 : ℚ) / (10 : ℚ) ^ 1) * 1000))])] := rfl
  rw [h]
  norm_num

/-- C8 (amended): in every snapshot the structured-markup parser
produces, each identity key appears at most once; raw entries sharing a
key have their market values summed exactly (two entries worth 100 and
200 base units combine to 300) and the first non-empty company name wins;
share counts are not tracked at all. -/
theorem c8_key_uniqueness_and_aggregation :
    (∀ (root : XmlElem) (agg : Bool),
      ((parse_13f_xml_fromRoot root agg).map Prod.fst).Nodup) ∧
    (parse_13f_xml_fromRoot c8root true).map Prod.fst = ["12345678"] ∧
    hdName (((parse_13f_xml_fromRoot c8root true).lookup "12345678").getD emptyHolding) =
      "FIRST NAME CO" ∧
    hdValue (((parse_13f_xml_fromRoot c8root true).lookup "12345678").getD emptyHolding) =
      300 := by
  refine ⟨parse_13f_xml_fromRoot_keys_nodup, rfl, rfl, ?_⟩
  have h : hdValue (((parse_13f_xml_fromRoot c8root true).lookup "12345678").getD
      emptyHolding) = (((0 : ℚ) + ((0 : ℚ) + (1 : ℚ) / (10 : ℚ) ^ 1) * 1000)
        + ((0 : ℚ) + (2 : ℚ) / (10 : ℚ) ^ 1) * 1000) := rfl
  rw [h]
  norm_num
